import Mathlib

/-!
Verification of the oncall-lens backend core
(`backend/main.py`, `backend/services/agent_service.py`,
`backend/services/advanced_retrieval.py`, `backend/services/vector_store.py`)
against its natural-language specification.

Strings originating from Python text processing are modelled as `List Char`;
Python `str.lower` is `Char.toLower` mapped over the characters, substring
containment (`needle in hay`) is an explicit scan, `str.split("\n")` is a
structural splitter and `str.strip()` drops leading/trailing whitespace
(Lean's `Char.isWhitespace` covers the whitespace characters relevant here).
Python `float` arithmetic on confidence values and weights is modelled by `ℚ`;
the quantities involved are small decimal constants, exactly representable
in binary-independent rational arithmetic, and no claim depends on rounding.
The shared `progress_tasks` dict of `main.py` is modelled as a function
`String → Option (TableEntry ρ)`.
-/

namespace OncallLens

/-- Python `str.lower` character-wise. -/
def toLowerList (s : List Char) : List Char := s.map Char.toLower

/-- Boolean prefix test on character lists (`List.isPrefixOf` specialised). -/
def prefixTest : List Char → List Char → Bool
  | [], _ => true
  | _ :: _, [] => false
  | a :: as, b :: bs => a = b && prefixTest as bs

/-- Python substring containment `needle in hay`. -/
def containsSub : (hay needle : List Char) → Bool
  | [], needle => needle.isEmpty
  | c :: rest, needle => prefixTest needle (c :: rest) || containsSub rest needle

/-- Python `str.split("\n")`: splits at every newline, keeping empty segments
(the empty text yields one empty line). -/
def splitLines : List Char → List (List Char)
  | [] => [[]]
  | c :: rest =>
    if c = '\n' then [] :: splitLines rest
    else
      match splitLines rest with
      | [] => [[c]]
      | l :: ls => (c :: l) :: ls

/-- Python `str.strip()`: remove leading and trailing whitespace. -/
def pythonStrip (s : List Char) : List Char :=
  ((s.dropWhile Char.isWhitespace).reverse.dropWhile Char.isWhitespace).reverse

/-- Model of `models/api_models.py` `ProcessedFile` (the fields the pipeline reads). -/
structure ProcessedFile where
  filename : String
  file_type : String
  content : List Char
  size_bytes : Nat

/-- The keyword list of `AgentService._extract_errors`
(`['error', 'exception', 'failed', 'timeout']`). -/
def errorKeywords : List (List Char) :=
  ["error".data, "exception".data, "failed".data, "timeout".data]

/-- Line-level flagging in `_extract_errors`:
`any(keyword in line_lower for keyword in [...])`. -/
def lineFlagged (line : List Char) : Bool :=
  errorKeywords.any (fun kw => containsSub (toLowerList line) kw)

/-- The per-file guard of `_extract_errors`:
`"error" in content_lower or "exception" in content_lower`. -/
def fileScanned (content : List Char) : Bool :=
  containsSub (toLowerList content) "error".data ||
    containsSub (toLowerList content) "exception".data

/-- The inner line loop of `_extract_errors`: append each flagged line
stripped, and break out of this file once 10 errors have accumulated. -/
def scanLines : (errs lines : List (List Char)) → List (List Char)
  | errs, [] => errs
  | errs, line :: rest =>
    if lineFlagged line then
      let errs2 := errs ++ [pythonStrip line]
      if 10 ≤ errs2.length then errs2 else scanLines errs2 rest
    else scanLines errs rest

/-- The body of the outer file loop of `_extract_errors`: a file is scanned
only when its whole content mentions `error` or `exception`. -/
def scanFile (errs : List (List Char)) (file : ProcessedFile) : List (List Char) :=
  if fileScanned file.content then scanLines errs (splitLines file.content) else errs

/-- Embedding of `AgentService._extract_errors`: fold the file loop, then `errors[:10]`. -/
def extract_errors (files : List ProcessedFile) : List (List Char) :=
  (files.foldl scanFile []).take 10

/-- All lines of one file that `_extract_errors` flags (uncapped): nothing
when the per-file guard fails, otherwise the flagged lines, stripped. -/
def fileFlaggedLines (content : List Char) : List (List Char) :=
  if fileScanned content then
    ((splitLines content).filter lineFlagged).map pythonStrip
  else []

/-- All flagged lines across the files, in file order then line order. -/
def flaggedLines (files : List ProcessedFile) : List (List Char) :=
  files.flatMap (fun f => fileFlaggedLines f.content)

end OncallLens

namespace OncallLens

lemma scanLines_nil (errs : List (List Char)) : scanLines errs [] = errs := rfl

lemma scanLines_cons (errs : List (List Char)) (line : List Char) (rest : List (List Char)) :
    scanLines errs (line :: rest) =
      if lineFlagged line then
        (if 10 ≤ (errs ++ [pythonStrip line]).length then errs ++ [pythonStrip line]
         else scanLines (errs ++ [pythonStrip line]) rest)
      else scanLines errs rest := rfl

/-- The inner loop either consumes all lines of the file — appending every
flagged line — or stops early at the 10-line cap, in which case its output
is a prefix of the full flagged list of length at least 10. -/
lemma scanLines_split (lines : List (List Char)) : ∀ errs : List (List Char),
    scanLines errs lines = errs ++ (lines.filter lineFlagged).map pythonStrip ∨
    ((∃ t, errs ++ (lines.filter lineFlagged).map pythonStrip = scanLines errs lines ++ t) ∧
      10 ≤ (scanLines errs lines).length) := by
  induction lines with
  | nil => intro errs; left; simp [scanLines_nil]
  | cons line rest ih =>
    intro errs
    rw [scanLines_cons]
    cases hf : lineFlagged line with
    | false =>
      simp only [hf, Bool.false_eq_true, if_false]
      rcases ih errs with h | ⟨⟨t, ht⟩, hlen2⟩
      · left; rw [h]; simp [List.filter_cons, hf]
      · right
        refine ⟨⟨t, ?_⟩, hlen2⟩
        rw [← ht]
        simp [List.filter_cons, hf]
    | true =>
      simp only [hf, if_true]
      by_cases hlen : 10 ≤ (errs ++ [pythonStrip line]).length
      · rw [if_pos hlen]
        right
        refine ⟨⟨(rest.filter lineFlagged).map pythonStrip, ?_⟩, hlen⟩
        simp [List.filter_cons, hf]
      · rw [if_neg hlen]
        rcases ih (errs ++ [pythonStrip line]) with h | ⟨⟨t, ht⟩, hlen2⟩
        · left
          rw [h]
          simp [List.filter_cons, hf]
        · right
          refine ⟨⟨t, ?_⟩, hlen2⟩
          rw [← ht]
          simp [List.filter_cons, hf]

lemma take_ten_append {α : Type} (l t : List α) (h : 10 ≤ l.length) :
    (l ++ t).take 10 = l.take 10 := by
  rw [List.take_append_eq_append_take, Nat.sub_eq_zero_of_le h, List.take_zero, List.append_nil]

lemma scanFile_take (errs : List (List Char)) (f : ProcessedFile) (L : List (List Char)) :
    (scanFile errs f ++ L).take 10 = ((errs ++ fileFlaggedLines f.content) ++ L).take 10 := by
  unfold scanFile fileFlaggedLines
  cases hs : fileScanned f.content with
  | false => simp
  | true =>
    simp only [if_true]
    rcases scanLines_split (splitLines f.content) errs with h | ⟨⟨t, ht⟩, hlen⟩
    · rw [h]
    · rw [take_ten_append _ _ hlen, ht, List.append_assoc, take_ten_append _ _ hlen]

lemma foldl_scanFile_take (files : List ProcessedFile) : ∀ errs : List (List Char),
    (files.foldl scanFile errs).take 10 = (errs ++ flaggedLines files).take 10 := by
  induction files with
  | nil => intro errs; simp [flaggedLines]
  | cons f fs ih =>
    intro errs
    rw [List.foldl_cons, ih (scanFile errs f)]
    have h : flaggedLines (f :: fs) = fileFlaggedLines f.content ++ flaggedLines fs := by
      simp [flaggedLines]
    rw [h, ← List.append_assoc]
    exact scanFile_take errs f (flaggedLines fs)

/-- Characterization: `_extract_errors` returns exactly the first 10 lines it flags, in file
order then line order within each file. -/
theorem extract_errors_eq_take (files : List ProcessedFile) :
    extract_errors files = (flaggedLines files).take 10 := by
  unfold extract_errors
  rw [foldl_scanFile_take]
  simp

/-- A file whose two lines mention only `failed` and `timeout`: its content
never mentions `error` or `exception`, so `_extract_errors` skips it. -/
def failedOnlyFile : ProcessedFile :=
  ⟨"worker.log", "log", "job failed\ntimeout waiting for lock".data, 33⟩

/-- A file with one `error` line, used as a witness input. -/
def smallErrorFile : ProcessedFile :=
  ⟨"db.log", "log", "error: connection refused\nall good".data, 36⟩

/-- One line of the 50-line cap scenario (flagged, with surrounding
whitespace to exercise `str.strip`). -/
def line50 : List Char := "  error: db timeout  ".data

/-- A single file whose content is 50 newline-separated lines, each
containing `error` (the spec scenario for the extraction cap). -/
def errorFile50 : ProcessedFile :=
  ⟨"app.log", "log", ((List.replicate 50 line50).intersperse ['\n']).flatten, 1100⟩

/-- C1 counterexample: the line `job failed` satisfies the claim's keyword
condition (it contains `failed`), it is a line of `failedOnlyFile`, whose
content contains neither `error` nor `exception`; yet `_extract_errors`
returns nothing for that file, because the per-file guard
`"error" in content_lower or "exception" in content_lower` skips the file
before any line is examined. -/
theorem C1_counterexample :
    lineFlagged "job failed".data = true ∧
    "job failed".data ∈ splitLines failedOnlyFile.content ∧
    fileScanned failedOnlyFile.content = false ∧
    extract_errors [failedOnlyFile] = [] := by decide

/-- C1 (amended): when at most 10 lines are flagged overall (so the cap does
not interfere), a stripped line is in `extracted_errors` iff it comes from a
file whose whole content case-insensitively contains `error` or `exception`
AND the line itself case-insensitively contains one of `error`, `exception`,
`failed`, `timeout`. Lines of files that mention only `failed`/`timeout` are
never included. -/
theorem C1_errors_flagged_iff_guarded (files : List ProcessedFile)
    (hsmall : (flaggedLines files).length ≤ 10) (l : List Char) :
    l ∈ extract_errors files ↔
      ∃ f ∈ files, fileScanned f.content = true ∧
        ∃ raw ∈ splitLines f.content, lineFlagged raw = true ∧ l = pythonStrip raw := by
  rw [extract_errors_eq_take, List.take_of_length_le hsmall]
  unfold flaggedLines
  rw [List.mem_flatMap]
  constructor
  · rintro ⟨f, hf, hmem⟩
    cases hs : fileScanned f.content with
    | false => simp [fileFlaggedLines, hs] at hmem
    | true =>
      simp only [fileFlaggedLines, hs, if_true] at hmem
      rcases List.mem_map.mp hmem with ⟨raw, hraw, heq⟩
      rcases List.mem_filter.mp hraw with ⟨hrawmem, hflag⟩
      exact ⟨f, hf, hs, raw, hrawmem, hflag, heq.symm⟩
  · rintro ⟨f, hf, hs, raw, hrawmem, hflag, rfl⟩
    refine ⟨f, hf, ?_⟩
    simp only [fileFlaggedLines, hs, if_true]
    exact List.mem_map_of_mem _ (List.mem_filter.mpr ⟨hrawmem, hflag⟩)

/-- Witness for the amended C1, at a concrete two-file input whose first
file mentions only `failed`/`timeout` and whose second file has one `error`
line. -/
theorem C1_errors_flagged_iff_guarded_witness :
    (flaggedLines [failedOnlyFile, smallErrorFile]).length ≤ 10 ∧
    ("error: connection refused".data ∈ extract_errors [failedOnlyFile, smallErrorFile] ↔
      ∃ f ∈ [failedOnlyFile, smallErrorFile], fileScanned f.content = true ∧
        ∃ raw ∈ splitLines f.content, lineFlagged raw = true ∧
          "error: connection refused".data = pythonStrip raw) :=
  ⟨by decide, C1_errors_flagged_iff_guarded [failedOnlyFile, smallErrorFile] (by decide) _⟩

/-- C2: error extraction returns at most 10 entries, and exactly the first
10 lines it flags (file order, then line order); on a single file of 50
lines each containing `error`, all 50 lines are flagged and exactly the
first 10 are returned. -/
theorem C2_cap_first_ten :
    (∀ files : List ProcessedFile,
        (extract_errors files).length ≤ 10 ∧
        extract_errors files = (flaggedLines files).take 10) ∧
    (flaggedLines [errorFile50]).length = 50 ∧
    extract_errors [errorFile50] = (flaggedLines [errorFile50]).take 10 ∧
    extract_errors [errorFile50] = List.replicate 10 "error: db timeout".data ∧
    (extract_errors [errorFile50]).length = 10 := by
  refine ⟨fun files => ⟨?_, extract_errors_eq_take files⟩, by decide, by decide, by decide, by decide⟩
  rw [extract_errors_eq_take]
  exact List.length_take_le 10 _

end OncallLens

namespace OncallLens

/-- One entry of the pipeline's `root_causes` list (a Python dict with keys
`category`, `description`, `confidence`, `evidence`); `confidence` is
`Option`-valued so that `rc.get("confidence", 0.0)` is modelled exactly. -/
structure RootCauseInfo where
  category : String
  description : String
  confidence : Option ℚ
  evidence : List String
deriving DecidableEq

/-- One entry of the pipeline's `recommendations` list. -/
structure RecommendationInfo where
  priority : String
  category : String
  action : String
  rationale : String

/-- One entry of the pipeline's `similar_incidents` list. -/
structure SimilarIncidentInfo where
  content : String
  similarity_score : ℚ
  source : String

/-- Model of `agent_service.IncidentState`, the working memory threaded through the
four pipeline stages. -/
structure IncidentState where
  processed_files : List ProcessedFile
  incident_summary : String
  extracted_errors : List (List Char)
  similar_incidents : List SimilarIncidentInfo
  root_causes : List RootCauseInfo
  recommendations : List RecommendationInfo
  confidence_score : ℚ
  messages : List String

/-- The success path of `AgentService._synthesizer_agent`. The LLM call that
produces the recommendation text is external, so the parsed recommendation
list enters as a parameter; the stage stores it, computes the overall
confidence exactly as the source does
(`sum(confidence_scores) / len(confidence_scores) if confidence_scores else 0.0`
over `confidence_scores = [rc.get("confidence", 0.0) for rc in root_causes]`)
and appends the audit message. -/
def synthesizerUpdate (state : IncidentState)
    (recommendations : List RecommendationInfo) : IncidentState :=
  let confidence_scores := state.root_causes.map (fun rc => rc.confidence.getD 0)
  let overall_confidence :=
    if confidence_scores.isEmpty then 0
    else confidence_scores.sum / (confidence_scores.length : ℚ)
  { state with
      recommendations := recommendations
      confidence_score := overall_confidence
      messages := state.messages ++ ["Synthesis completed - generated final recommendations"] }

/-- The two root causes hard-coded by `_parse_root_causes`, with confidences
0.9 and 0.8 — the spec's concrete confidence-aggregation scenario. -/
def exRootCauses : List RootCauseInfo :=
  [⟨"Database", "Database connection pool exhaustion", some (9/10),
      ["Connection timeout errors", "Pool size configuration"]⟩,
    ⟨"Code", "Resource leak in connection handling", some (4/5),
      ["Stack trace analysis", "Missing cleanup code"]⟩]

/-- The freshly initialized `IncidentState` of `analyze_incident`. -/
def initialIncidentState (files : List ProcessedFile) : IncidentState :=
  ⟨files, "", [], [], [], [], 0, []⟩

/-- A state that reached the synthesizer with the two concrete root causes. -/
def exStateTwoCauses : IncidentState :=
  { initialIncidentState [] with root_causes := exRootCauses }

/-- C3: the synthesizer stage writes `confidence_score` as the arithmetic
mean of the per-root-cause confidences when `root_causes` is non-empty, and
`0` when it is empty (the division is guarded, so no division by zero is
performed); with the concrete confidences 0.9 and 0.8 the score is 0.85. -/
theorem C3_confidence_mean :
    (∀ (state : IncidentState) (recs : List RecommendationInfo),
        (synthesizerUpdate state recs).confidence_score =
          if state.root_causes = [] then 0
          else (state.root_causes.map (fun rc => rc.confidence.getD 0)).sum /
            (state.root_causes.length : ℚ)) ∧
    (synthesizerUpdate exStateTwoCauses []).confidence_score = 17/20 ∧
    (synthesizerUpdate (initialIncidentState []) []).confidence_score = 0 := by
  refine ⟨fun state recs => ?_, ?_, ?_⟩
  · rcases h : state.root_causes with _ | ⟨rc, rcs⟩
    · simp [synthesizerUpdate, h]
    · simp [synthesizerUpdate, h]
  · norm_num [synthesizerUpdate, exStateTwoCauses, exRootCauses, initialIncidentState]
  · norm_num [synthesizerUpdate, initialIncidentState]

end OncallLens

namespace OncallLens

/-- The value `update_progress` stores in `progress_tasks` (the event-loop
timestamp is abstracted to a rational parameter). -/
structure ProgressRecord where
  task_id : String
  stage : String
  message : String
  percentage : Int
  completed : Bool
  timestamp : ℚ
deriving DecidableEq

/-- An entry of the shared `progress_tasks` dict of `main.py`: progress
records live under the task id, final results (of opaque payload type `ρ`)
under the task id suffixed with `_result`. -/
inductive TableEntry (ρ : Type) where
  | progress (rec : ProgressRecord)
  | result (res : ρ)
deriving DecidableEq

/-- The shared `progress_tasks` dict, as a key-to-entry map. -/
def ProgressTable (ρ : Type) : Type := String → Option (TableEntry ρ)

/-- Embedding of `main.update_progress`: overwrite the single record kept for `task_id`. -/
def update_progress {ρ : Type} (table : ProgressTable ρ) (task_id stage message : String)
    (percentage : Int) (completed : Bool) (now : ℚ) : ProgressTable ρ :=
  fun k =>
    if k = task_id then
      some (.progress ⟨task_id, stage, message, percentage, completed, now⟩)
    else table k

/-- The key `task_id + "_result"` used by `run_analysis_background` and
`get_analysis_results`. -/
def resultKey (task_id : String) : String := task_id ++ "_result"

/-- The result publication `progress_tasks[task_id + "_result"] = {...}` in
`run_analysis_background`. -/
def storeResult {ρ : Type} (table : ProgressTable ρ) (task_id : String) (res : ρ) :
    ProgressTable ρ :=
  fun k => if k = resultKey task_id then some (.result res) else table k

/-- Embedding of `main.get_analysis_results` (GET `/results/{task_id}`): the first
component is the HTTP outcome (`some` the stored entry, `none` the 404
not-found), the second the shared table after the call (the entry is
deleted on success). -/
def get_analysis_results {ρ : Type} (table : ProgressTable ρ) (task_id : String) :
    Option (TableEntry ρ) × ProgressTable ρ :=
  match table (resultKey task_id) with
  | some r => (some r, fun k => if k = resultKey task_id then none else table k)
  | none => (none, table)

/-- The f-string `f"Using {len(processed_files)} processed files"`. -/
def processingMessage (n : Nat) : String := "Using " ++ toString n ++ " processed files"

/-- Embedding of `main.run_analysis_background`. The awaited
`agent_service.analyze_incident_with_progress` call is external to this
function (its outcome enters as `outcome`: `Except.error e` models a raised
exception with message `e`); the progress callbacks it issues while running
are the `cbUpdates` list, each applied through `update_progress` with the
default `completed = False`. -/
def run_analysis_background {ρ : Type} (table : ProgressTable ρ) (task_id : String)
    (nfiles : Nat) (cbUpdates : List (String × String × Int))
    (outcome : Except String ρ) (now : ℚ) : ProgressTable ρ :=
  let t1 := update_progress table task_id "start" "Starting incident analysis..." 5 false now
  let t2 := update_progress t1 task_id "processing" (processingMessage nfiles) 25 false now
  let t3 := update_progress t2 task_id "analysis" "Initializing AI analysis..." 30 false now
  let t4 := cbUpdates.foldl
    (fun t u => update_progress t task_id u.1 u.2.1 u.2.2 false now) t3
  match outcome with
  | .ok res =>
      update_progress (storeResult t4 task_id res) task_id "complete"
        "Analysis completed successfully!" 100 true now
  | .error e =>
      update_progress t4 task_id "error" ("Analysis failed: " ++ e) 0 true now

/-- C4: result retrieval is at-most-once. If the result record for a task is
present, the first call returns it and deletes it, so the second call (and
every later one, the table being returned unchanged) reports not-found; a
call made while no result exists reports not-found and leaves the table
unchanged. -/
theorem C4_at_most_once_delivery {ρ : Type} (table : ProgressTable ρ) (task_id : String) :
    (∀ r, table (resultKey task_id) = some r →
      (get_analysis_results table task_id).1 = some r ∧
      (get_analysis_results table task_id).2 (resultKey task_id) = none ∧
      (get_analysis_results (get_analysis_results table task_id).2 task_id).1 = none ∧
      (get_analysis_results (get_analysis_results table task_id).2 task_id).2 =
        (get_analysis_results table task_id).2) ∧
    (table (resultKey task_id) = none →
      (get_analysis_results table task_id).1 = none ∧
      (get_analysis_results table task_id).2 = table) := by
  constructor
  · intro r h
    refine ⟨?_, ?_, ?_, ?_⟩ <;> simp [get_analysis_results, h]
  · intro h
    simp [get_analysis_results, h]

/-- A table holding one completed result (payload 42) for task `t1`. -/
def tbl0 : ProgressTable Nat :=
  fun k => if k = "t1_result" then some (.result 42) else none

/-- Witness for C4 at `tbl0`: task `t1` has a stored result, delivered once
then gone; task `t2` has none and reports not-found. -/
theorem C4_at_most_once_delivery_witness :
    ((get_analysis_results tbl0 "t1").1 = some (TableEntry.result 42) ∧
      (get_analysis_results tbl0 "t1").2 (resultKey "t1") = none ∧
      (get_analysis_results (get_analysis_results tbl0 "t1").2 "t1").1 = none ∧
      (get_analysis_results (get_analysis_results tbl0 "t1").2 "t1").2 =
        (get_analysis_results tbl0 "t1").2) ∧
    ((get_analysis_results tbl0 "t2").1 = none ∧
      (get_analysis_results tbl0 "t2").2 = tbl0) :=
  ⟨(C4_at_most_once_delivery tbl0 "t1").1 (TableEntry.result 42) rfl,
    (C4_at_most_once_delivery tbl0 "t2").2 rfl⟩

/-- C8: whatever the analysis outcome, `run_analysis_background` leaves a
terminal progress record (`completed = true`) for the task: on success the
`complete` record at percentage 100, and on any raised exception the caught
error is translated into an `error` record carrying the exception message. -/
theorem C8_background_terminal {ρ : Type} (table : ProgressTable ρ) (task_id : String)
    (nfiles : Nat) (cbUpdates : List (String × String × Int))
    (outcome : Except String ρ) (now : ℚ) :
    (∀ e, outcome = .error e →
      run_analysis_background table task_id nfiles cbUpdates outcome now task_id =
        some (.progress ⟨task_id, "error", "Analysis failed: " ++ e, 0, true, now⟩)) ∧
    (∀ res, outcome = .ok res →
      run_analysis_background table task_id nfiles cbUpdates outcome now task_id =
        some (.progress
          ⟨task_id, "complete", "Analysis completed successfully!", 100, true, now⟩)) ∧
    (∃ rec : ProgressRecord,
      run_analysis_background table task_id nfiles cbUpdates outcome now task_id =
        some (.progress rec) ∧
      rec.completed = true ∧
      ((rec.stage = "complete" ∧ rec.percentage = 100) ∨ rec.stage = "error")) := by
  refine ⟨?_, ?_, ?_⟩
  · rintro e rfl
    simp [run_analysis_background, update_progress]
  · rintro res rfl
    simp [run_analysis_background, update_progress]
  · rcases outcome with e | res
    · exact ⟨⟨task_id, "error", "Analysis failed: " ++ e, 0, true, now⟩,
        by simp [run_analysis_background, update_progress], rfl, Or.inr rfl⟩
    · exact ⟨⟨task_id, "complete", "Analysis completed successfully!", 100, true, now⟩,
        by simp [run_analysis_background, update_progress], rfl, Or.inl ⟨rfl, rfl⟩⟩

/-- Witness for C8 at a concrete failing run: the exception message `boom`
ends up in a terminal `error` record. -/
theorem C8_background_terminal_witness :
    run_analysis_background ((fun _ => none) : ProgressTable Nat) "t1" 2
        [("analysis", "step", 40)] (Except.error "boom") 0 "t1" =
      some (.progress ⟨"t1", "error", "Analysis failed: boom", 0, true, 0⟩) :=
  (C8_background_terminal (fun _ => none) "t1" 2 [("analysis", "step", 40)]
    (Except.error "boom") 0).1 "boom" rfl

end OncallLens

namespace OncallLens

/-- Model of `progress.get("completed", False)` on a table entry: a result entry
(a dict without the `completed` key) defaults to `False`. -/
def entryCompleted {ρ : Type} : TableEntry ρ → Bool
  | .progress rec => rec.completed
  | .result _ => false

/-- One iteration of the `while True` loop of `main.progress_stream`:
if the task has an entry, yield it (first component) and, when it is
completed, delete it and end the stream (third component `true`);
otherwise yield nothing and keep polling. -/
def pollOnce {ρ : Type} (table : ProgressTable ρ) (task_id : String) :
    Option (TableEntry ρ) × ProgressTable ρ × Bool :=
  match table task_id with
  | none => (none, table, false)
  | some entry =>
    if entryCompleted entry then
      (some entry, fun k => if k = task_id then none else table k, true)
    else (some entry, table, false)

/-- The polling loop run against per-poll snapshots of the shared table
(the background task may rewrite the table between polls): the entries
yielded during the first `n` polls, and whether the stream has ended. -/
def streamRun {ρ : Type} (tables : Nat → ProgressTable ρ) (task_id : String) :
    Nat → List (TableEntry ρ) × Bool
  | 0 => ([], false)
  | n + 1 =>
    if (streamRun tables task_id n).2 then streamRun tables task_id n
    else
      ((streamRun tables task_id n).1 ++ (pollOnce (tables n) task_id).1.toList,
        (pollOnce (tables n) task_id).2.2)

lemma pollOnce_terminated {ρ : Type} (table : ProgressTable ρ) (task_id : String)
    (h : (pollOnce table task_id).2.2 = true) :
    ∃ rec : ProgressRecord,
      table task_id = some (.progress rec) ∧ rec.completed = true ∧
      (pollOnce table task_id).1 = some (.progress rec) ∧
      (pollOnce table task_id).2.1 task_id = none := by
  rcases ht : table task_id with _ | entry
  · simp [pollOnce, ht] at h
  · rcases entry with rec | res
    · rcases hc : rec.completed with _ | _
      · simp [pollOnce, ht, entryCompleted, hc] at h
      · exact ⟨rec, rfl, hc, by simp [pollOnce, ht, entryCompleted, hc],
          by simp [pollOnce, ht, entryCompleted, hc]⟩
    · simp [pollOnce, ht, entryCompleted] at h

/-- C10: (1) for a task id that never has a table entry, the stream yields
nothing and never ends, for any number of polls — there is no not-found
outcome; (2) if the stream has ended within `n` polls, some earlier poll
saw a record with `completed = true` and yielded it; (3) the poll that ends
the stream yields exactly the completed record and deletes it. -/
theorem C10_stream_semantics {ρ : Type} (task_id : String) :
    (∀ tables : Nat → ProgressTable ρ, (∀ n, tables n task_id = none) →
      ∀ n, streamRun tables task_id n = ([], false)) ∧
    (∀ (tables : Nat → ProgressTable ρ) (n : Nat),
      (streamRun tables task_id n).2 = true →
      ∃ k, k < n ∧ ∃ rec : ProgressRecord,
        tables k task_id = some (.progress rec) ∧ rec.completed = true ∧
        TableEntry.progress rec ∈ (streamRun tables task_id n).1) ∧
    (∀ table : ProgressTable ρ, (pollOnce table task_id).2.2 = true →
      ∃ rec : ProgressRecord,
        table task_id = some (.progress rec) ∧ rec.completed = true ∧
        (pollOnce table task_id).1 = some (.progress rec) ∧
        (pollOnce table task_id).2.1 task_id = none) := by
  refine ⟨?_, ?_, fun table h => pollOnce_terminated table task_id h⟩
  · intro tables habs n
    induction n with
    | zero => rfl
    | succ n ih => simp [streamRun, ih, pollOnce, habs n]
  · intro tables n
    induction n with
    | zero => intro h; exact absurd h (by simp [streamRun])
    | succ n ih =>
      intro h
      by_cases hp : (streamRun tables task_id n).2 = true
      · rcases ih hp with ⟨k, hk, rec, h1, h2, h3⟩
        refine ⟨k, Nat.lt_succ_of_lt hk, rec, h1, h2, ?_⟩
        simpa [streamRun, hp] using h3
      · have hterm : (pollOnce (tables n) task_id).2.2 = true := by
          simp only [streamRun, hp, if_false] at h
          exact h
        rcases pollOnce_terminated (tables n) task_id hterm with ⟨rec, h1, h2, h3, _⟩
        refine ⟨n, Nat.lt_succ_self n, rec, h1, h2, ?_⟩
        simp [streamRun, hp, h3]

/-- A completed progress record for task `t1`. -/
def doneRec : ProgressRecord := ⟨"t1", "complete", "Analysis completed successfully!", 100, true, 0⟩

/-- A table holding the completed record for `t1`. -/
def tblDone : ProgressTable Nat :=
  fun k => if k = "t1" then some (.progress doneRec) else none

/-- Witness for C10: with the always-empty table the stream has yielded
nothing and not ended after 3 polls, and polling a table holding a
completed record for `t1` ends the stream, yielding and deleting it. -/
theorem C10_stream_semantics_witness :
    streamRun (fun _ => (fun _ => none : ProgressTable Nat)) "t1" 3 = ([], false) ∧
    (∃ rec : ProgressRecord,
      tblDone "t1" = some (.progress rec) ∧ rec.completed = true ∧
      (pollOnce tblDone "t1").1 = some (.progress rec) ∧
      (pollOnce tblDone "t1").2.1 "t1" = none) :=
  ⟨(C10_stream_semantics "t1").1 (fun _ _ => none) (fun _ => rfl) 3,
    (C10_stream_semantics "t1").2.2 tblDone rfl⟩

end OncallLens

namespace OncallLens

/-- The retriever slots of `AdvancedRetrievalService` (`none` models Python
`None`, i.e. a strategy not set up); the retriever objects themselves are
opaque values of type `R`. -/
structure RetrievalService (R : Type) where
  naive_retriever : Option R
  parent_document_retriever : Option R
  bm25_retriever : Option R
  multi_query_retriever : Option R
  compression_retriever : Option R
  hybrid_retriever : Option R
  ensemble_retriever : Option R

/-- The dict lookup `retrievers.get(strategy)` inside
`AdvancedRetrievalService.get_retriever`: an unknown key yields `None`, and
a known key whose slot holds `None` also yields `None`. -/
def strategyLookup {R : Type} (s : RetrievalService R) (strategy : String) : Option R :=
  if strategy = "naive" then s.naive_retriever
  else if strategy = "parent_document" then s.parent_document_retriever
  else if strategy = "bm25" then s.bm25_retriever
  else if strategy = "multi_query" then s.multi_query_retriever
  else if strategy = "compression" then s.compression_retriever
  else if strategy = "hybrid" then s.hybrid_retriever
  else if strategy = "ensemble" then s.ensemble_retriever
  else none

/-- Embedding of `AdvancedRetrievalService.get_retriever`: whenever the lookup yields
`None`, log a warning and return the naive retriever instead. -/
def get_retriever {R : Type} (s : RetrievalService R) (strategy : String) : Option R :=
  match strategyLookup s strategy with
  | none => s.naive_retriever
  | some r => some r

/-- The seven strategy names keyed in `get_retriever`. -/
def knownStrategies : List String :=
  ["naive", "parent_document", "bm25", "multi_query", "compression", "hybrid", "ensemble"]

/-- Embedding of `_setup_compression_retriever`: with no (truthy) Cohere key the method
returns early and the slot stays as it was; otherwise the Cohere reranker
construction — external, entering as `buildOutcome` — fills the slot on
success and resets it to `None` on a raised exception. -/
def setup_compression_retriever {R : Type} (s : RetrievalService R)
    (cohere_api_key : Option String) (buildOutcome : Except String R) :
    RetrievalService R :=
  if cohere_api_key.getD "" = "" then s
  else
    match buildOutcome with
    | .ok c => { s with compression_retriever := some c }
    | .error _ => { s with compression_retriever := none }

/-- From `_setup_hybrid_retriever`: the sub-retriever list `[bm25, naive]` handed
to the rank-fusion `EnsembleRetriever`. -/
def hybridRetrievers {R : Type} (s : RetrievalService R) : List (Option R) :=
  [s.bm25_retriever, s.naive_retriever]

/-- From `_setup_hybrid_retriever`: `weights = [0.3, 0.7]`. -/
def hybridWeights : List ℚ := [3/10, 7/10]

/-- From `_setup_ensemble_retriever`: the five always-constructed strategies,
plus the compression retriever appended when (and only when) available. -/
def ensembleRetrievers {R : Type} (s : RetrievalService R) : List (Option R) :=
  match s.compression_retriever with
  | some c =>
      [s.naive_retriever, s.parent_document_retriever, s.bm25_retriever,
        s.multi_query_retriever, s.hybrid_retriever] ++ [some c]
  | none =>
      [s.naive_retriever, s.parent_document_retriever, s.bm25_retriever,
        s.multi_query_retriever, s.hybrid_retriever]

/-- From `_setup_ensemble_retriever`: `weights = [1/len(retrievers)] * len(retrievers)`. -/
def ensembleWeights {R : Type} (s : RetrievalService R) : List ℚ :=
  List.replicate (ensembleRetrievers s).length
    ((1 : ℚ) / ((ensembleRetrievers s).length : ℚ))

lemma strategyLookup_naive {R : Type} (s : RetrievalService R) :
    strategyLookup s "naive" = s.naive_retriever := rfl

lemma strategyLookup_compression {R : Type} (s : RetrievalService R) :
    strategyLookup s "compression" = s.compression_retriever := rfl

lemma get_retriever_naive {R : Type} (s : RetrievalService R) :
    get_retriever s "naive" = s.naive_retriever := by
  unfold get_retriever
  rw [strategyLookup_naive]
  rcases h : s.naive_retriever with _ | r <;> simp

/-- C6: every strategy name outside the seven known ones resolves, without
failing, to the very retriever the `naive` strategy resolves to. -/
theorem C6_unknown_strategy_fallback {R : Type} (s : RetrievalService R) (strategy : String)
    (h : strategy ∉ knownStrategies) :
    get_retriever s strategy = get_retriever s "naive" ∧
    get_retriever s strategy = s.naive_retriever := by
  simp only [knownStrategies, List.mem_cons, List.not_mem_nil, or_false, not_or] at h
  obtain ⟨h1, h2, h3, h4, h5, h6, h7⟩ := h
  have hl : strategyLookup s strategy = none := by
    simp [strategyLookup, h1, h2, h3, h4, h5, h6, h7]
  have hs : get_retriever s strategy = s.naive_retriever := by
    unfold get_retriever
    rw [hl]
  exact ⟨hs.trans (get_retriever_naive s).symm, hs⟩

/-- A concrete service state after initialization without Cohere
credentials: all strategies but compression are set up (with distinct
retriever instances, numbered). -/
def svcNoCohere : RetrievalService Nat :=
  ⟨some 0, some 1, some 2, some 3, none, some 4, some 5⟩

/-- Witness for C6 at the strategy name `nonexistent`. -/
theorem C6_unknown_strategy_fallback_witness :
    get_retriever svcNoCohere "nonexistent" = get_retriever svcNoCohere "naive" ∧
    get_retriever svcNoCohere "nonexistent" = svcNoCohere.naive_retriever :=
  C6_unknown_strategy_fallback svcNoCohere "nonexistent" (by decide)

/-- C5 counterexample: in `svcNoCohere` the compression retriever is
unavailable, yet `get_retriever("compression")` does not report
unavailability — it silently answers with the naive strategy's retriever
instance (`some 0`), exactly what `get_retriever("naive")` returns. -/
theorem C5_counterexample :
    svcNoCohere.compression_retriever = none ∧
    get_retriever svcNoCohere "compression" = some 0 ∧
    get_retriever svcNoCohere "naive" = some 0 ∧
    get_retriever svcNoCohere "compression" ≠ none := by decide

/-- C5 (amended): when no Cohere key is supplied, the compression setup
leaves the slot untouched (so it stays `None` after initialization), and a
later `get_retriever("compression")` silently falls back to the naive
retriever — the caller is not told the strategy is unavailable. -/
theorem C5_compression_fallback {R : Type} (s : RetrievalService R)
    (buildOutcome : Except String R) (h : s.compression_retriever = none) :
    setup_compression_retriever s none buildOutcome = s ∧
    get_retriever s "compression" = s.naive_retriever := by
  refine ⟨rfl, ?_⟩
  unfold get_retriever
  rw [strategyLookup_compression, h]

/-- Witness for the amended C5 at `svcNoCohere`. -/
theorem C5_compression_fallback_witness :
    setup_compression_retriever svcNoCohere none (Except.ok 9) = svcNoCohere ∧
    get_retriever svcNoCohere "compression" = svcNoCohere.naive_retriever :=
  C5_compression_fallback svcNoCohere (Except.ok 9) rfl

/-- C7: the hybrid retriever fuses exactly the keyword (BM25) and semantic
(naive) retrievers with the fixed weights 0.3 and 0.7, which sum to 1; the
ensemble retriever is built over N sub-retrievers — the five
always-constructed strategies, plus compression exactly when it is
available, so N = 5 or 6 — with every weight equal to 1/N. -/
theorem C7_fusion_weights {R : Type} (s : RetrievalService R) :
    hybridRetrievers s = [s.bm25_retriever, s.naive_retriever] ∧
    hybridWeights = [3/10, 7/10] ∧
    hybridWeights.sum = 1 ∧
    (ensembleWeights s).length = (ensembleRetrievers s).length ∧
    (∀ w ∈ ensembleWeights s, w = 1 / ((ensembleRetrievers s).length : ℚ)) ∧
    (s.compression_retriever = none → (ensembleRetrievers s).length = 5) ∧
    (∀ c, s.compression_retriever = some c → (ensembleRetrievers s).length = 6) := by
  refine ⟨rfl, rfl, by norm_num [hybridWeights], by simp [ensembleWeights], ?_, ?_, ?_⟩
  · intro w hw
    exact List.eq_of_mem_replicate hw
  · intro h
    simp [ensembleRetrievers, h]
  · intro c h
    simp [ensembleRetrievers, h]

/-- Witness for C7 at `svcNoCohere` (compression unavailable, so N = 5). -/
theorem C7_fusion_weights_witness :
    (∀ w ∈ ensembleWeights svcNoCohere, w = 1 / ((ensembleRetrievers svcNoCohere).length : ℚ)) ∧
    (ensembleRetrievers svcNoCohere).length = 5 :=
  ⟨(C7_fusion_weights svcNoCohere).2.2.2.2.1,
    (C7_fusion_weights svcNoCohere).2.2.2.2.2.1 rfl⟩

end OncallLens

namespace OncallLens

/-- The settings fields read by `QdrantVectorStore.similarity_search`
(`self.settings.top_k_retrieval`, `self.settings.similarity_threshold`). -/
structure VSSettings where
  top_k_retrieval : Int
  similarity_threshold : ℚ

/-- Coalescing `top_k = top_k or self.settings.top_k_retrieval`: Python `or` replaces
both `None` and the falsy `0` by the configured default. -/
def coalesceTopK (top_k : Option Int) (settings : VSSettings) : Int :=
  match top_k with
  | none => settings.top_k_retrieval
  | some k => if k = 0 then settings.top_k_retrieval else k

/-- Coalescing `similarity_threshold = similarity_threshold or
self.settings.similarity_threshold`: `None` and the falsy `0.0` both give
the configured default. -/
def coalesceThreshold (threshold : Option ℚ) (settings : VSSettings) : ℚ :=
  match threshold with
  | none => settings.similarity_threshold
  | some t => if t = 0 then settings.similarity_threshold else t

/-- Embedding of `QdrantVectorStore.similarity_search`: after the two coalescing lines,
the query is embedded and Qdrant is searched with `limit=top_k` and
`score_threshold=similarity_threshold` — embedding plus search are external
services, abstracted as `search`, invoked with the coalesced values. -/
def similarity_search {α : Type} (settings : VSSettings) (search : Int → ℚ → List α)
    (top_k : Option Int) (similarity_threshold : Option ℚ) : List α :=
  search (coalesceTopK top_k settings) (coalesceThreshold similarity_threshold settings)

/-- C9: passing `top_k = 0`/`None` or `similarity_threshold = 0.0`/`None` to
`similarity_search` silently substitutes the configured default before the
backend search runs — `0` and `None` are indistinguishable, so no caller can
search with an explicit zero limit or zero threshold; non-zero arguments are
passed through unchanged. -/
theorem C9_falsy_coalescing {α : Type} (settings : VSSettings) (search : Int → ℚ → List α) :
    similarity_search settings search (some 0) (some 0) =
      search settings.top_k_retrieval settings.similarity_threshold ∧
    similarity_search settings search none none =
      search settings.top_k_retrieval settings.similarity_threshold ∧
    coalesceTopK (some 0) settings = coalesceTopK none settings ∧
    coalesceThreshold (some 0) settings = coalesceThreshold none settings ∧
    (∀ k : Int, k ≠ 0 → coalesceTopK (some k) settings = k) ∧
    (∀ t : ℚ, t ≠ 0 → coalesceThreshold (some t) settings = t) := by
  refine ⟨rfl, rfl, rfl, rfl, fun k hk => ?_, fun t ht => ?_⟩
  · simp [coalesceTopK, hk]
  · simp [coalesceThreshold, ht]

/-- Concrete settings (defaults 5 and 0.5) and a search stub recording the
arguments it receives. -/
def exVSSettings : VSSettings := ⟨5, 1/2⟩

/-- A search stub that returns the limit and threshold it was called with. -/
def recordingSearch : Int → ℚ → List (Int × ℚ) := fun k t => [(k, t)]

/-- Witness for C9 at the concrete settings: explicit zeros are replaced by
the defaults 5 and 0.5, and non-zero arguments pass through. -/
theorem C9_falsy_coalescing_witness :
    similarity_search exVSSettings recordingSearch (some 0) (some 0) =
      recordingSearch exVSSettings.top_k_retrieval exVSSettings.similarity_threshold ∧
    coalesceTopK (some 3) exVSSettings = 3 ∧
    coalesceThreshold (some (1/4)) exVSSettings = 1/4 :=
  ⟨(C9_falsy_coalescing exVSSettings recordingSearch).1,
    (C9_falsy_coalescing exVSSettings recordingSearch).2.2.2.2.1 3 (by norm_num),
    (C9_falsy_coalescing exVSSettings recordingSearch).2.2.2.2.2 (1/4) (by norm_num)⟩

end OncallLens
